import Mathlib

/-!
Shallow embedding of the kube-rs watch-resync engine
(`src/kube/src/runtime/informer.rs`) and of the `CustomResource` derive
entry point (`src/kube-derive/src/custom_resource.rs`), with theorems
settling the specification claims about them.

Machine integers are modelled as `Nat` with explicit bounds (`u32` values
are `Nat`s below `2 ^ 32`); fallible operations return `Option`/`Except`.
-/

namespace KubeRs

/-! ## Decimal parsing and rendering (embedding of Rust `u32::from_str`
and `u32::to_string`) -/

/-- Embedding of the digit-consuming loop of Rust `u32::from_str`:
consume the characters left to right, accumulating `acc * 10 + digit`;
fail on the first non ASCII-digit character. -/
def parseDigitsCore : List Char → Nat → Option Nat
  | [], acc => some acc
  | c :: rest, acc =>
    if c.isDigit then parseDigitsCore rest (acc * 10 + (c.toNat - 48)) else none

/-- Rust `u32::from_str` accepts one optional leading `+` sign. -/
def stripPlus : List Char → List Char
  | [] => []
  | c :: rest => if c = '+' then rest else c :: rest

/-- Embedding of Rust `u32::from_str` (used at informer.rs:136):
an optional leading `+`, then one or more ASCII digits, and the value
must fit in an unsigned 32-bit integer; anything else fails. -/
def parseU32 (s : String) : Option Nat :=
  match stripPlus s.toList with
  | [] => none
  | c :: rest =>
    match parseDigitsCore (c :: rest) 0 with
    | some v => if v < 4294967296 then some v else none
    | none => none

/-- The decimal digit characters of `n`, most significant first
(no leading zeros, `"0"` for zero). -/
def natDigits (n : Nat) : List Char :=
  if h : n < 10 then [Char.ofNat (48 + n)]
  else natDigits (n / 10) ++ [Char.ofNat (48 + n % 10)]
  decreasing_by exact Nat.div_lt_self (by omega) (by omega)

/-- Embedding of Rust `u32::to_string` (used at informer.rs:139 and of
`0.to_string()` at informer.rs:43/75): decimal rendering. -/
def natToString (n : Nat) : String :=
  String.mk (natDigits n)

theorem parseDigitsCore_append (xs ys : List Char) (acc : Nat) :
    parseDigitsCore (xs ++ ys) acc =
      match parseDigitsCore xs acc with
      | some a => parseDigitsCore ys a
      | none => none := by
  induction xs generalizing acc with
  | nil => simp [parseDigitsCore]
  | cons c rest ih =>
    simp only [List.cons_append, parseDigitsCore]
    by_cases hc : c.isDigit
    · simp [hc, ih]
    · simp [hc]

theorem char_ofNat_digit_toNat {d : Nat} (hd : d < 10) :
    (Char.ofNat (48 + d)).toNat = 48 + d := by
  interval_cases d <;> decide

theorem char_ofNat_digit_isDigit {d : Nat} (hd : d < 10) :
    (Char.ofNat (48 + d)).isDigit = true := by
  interval_cases d <;> decide

theorem natDigits_ne_nil (n : Nat) : natDigits n ≠ [] := by
  rw [natDigits]
  split <;> simp

theorem natDigits_head_isDigit (n : Nat) :
    ∀ c cs, natDigits n = c :: cs → c.isDigit = true := by
  induction n using Nat.strong_induction_on with
  | _ n ih =>
    intro c cs hc
    rw [natDigits] at hc
    split at hc
    · rename_i h
      simp only [List.cons.injEq] at hc
      rw [← hc.1]
      exact char_ofNat_digit_isDigit h
    · rename_i h
      have hne := natDigits_ne_nil (n / 10)
      rcases hd : natDigits (n / 10) with _ | ⟨c0, cs0⟩
      · exact absurd hd hne
      · rw [hd] at hc
        simp only [List.cons_append, List.cons.injEq] at hc
        rw [← hc.1]
        exact ih (n / 10) (Nat.div_lt_self (by omega) (by omega)) c0 cs0 hd

theorem parseDigitsCore_natDigits (n : Nat) :
    ∀ acc, parseDigitsCore (natDigits n) acc =
      some (acc * 10 ^ (natDigits n).length + n) := by
  induction n using Nat.strong_induction_on with
  | _ n ih =>
    intro acc
    rw [natDigits]
    split
    · rename_i h
      simp [parseDigitsCore, char_ofNat_digit_isDigit h, char_ofNat_digit_toNat h]
    · rename_i h
      rw [parseDigitsCore_append]
      rw [ih (n / 10) (Nat.div_lt_self (by omega) (by omega)) acc]
      have h10 : n % 10 < 10 := Nat.mod_lt _ (by omega)
      simp only [parseDigitsCore, char_ofNat_digit_isDigit h10,
        char_ofNat_digit_toNat h10, if_true, List.length_append,
        List.length_cons, List.length_nil]
      congr 1
      have : (acc * 10 ^ (natDigits (n / 10)).length + n / 10) * 10 + (48 + n % 10 - 48)
          = acc * (10 ^ (natDigits (n / 10)).length * 10) + (n / 10 * 10 + n % 10) := by
        ring_nf
        omega
      rw [this, Nat.div_add_mod' n 10, ← pow_succ]

theorem parseU32_natToString {n : Nat} (hn : n < 4294967296) :
    parseU32 (natToString n) = some n := by
  have hdata : (natToString n).toList = natDigits n := rfl
  rcases hd : natDigits n with _ | ⟨c, cs⟩
  · exact absurd hd (natDigits_ne_nil n)
  · have hdig : c.isDigit = true := natDigits_head_isDigit n c cs hd
    have hcne : c ≠ '+' := by
      intro hEq
      rw [hEq] at hdig
      exact absurd hdig (by decide)
    rw [parseU32, hdata, hd]
    simp only [stripPlus, if_neg hcne]
    have := parseDigitsCore_natDigits n 0
    rw [hd] at this
    simp only [Nat.zero_mul, Nat.zero_add] at this
    rw [this]
    simp [hn]

theorem parseU32_lt {s : String} {n : Nat} (h : parseU32 s = some n) :
    n < 4294967296 := by
  rw [parseU32] at h
  split at h
  · exact absurd h (by simp)
  · split at h
    · split at h
      · rename_i hv
        simp only [Option.some.injEq] at h
        omega
      · exact absurd h (by simp)
    · exact absurd h (by simp)

/-! ## Data model of the watch stream -/

/-- Modelled from the spec: an Error event carries
`{code: integer, message: string, reason: string}`; code 410 is the
distinguished history-expired signal (the type lives in the `kube` crate's
api module, outside `src/`). -/
structure ErrorResponse where
  code : Nat
  message : String
  reason : String
deriving DecidableEq, Repr

/-- Modelled from the spec: a watched object, reduced to the only part the
informer reads through `Meta::resource_ver` — its optional resource
version string. -/
structure Obj where
  resourceVer : Option String
deriving DecidableEq, Repr

/-- Modelled from the spec: `WatchEvent` is a tagged variant over
Added/Modified/Deleted (carrying an object) and Error (carrying a status);
the type lives in the `kube` crate's api module, outside `src/`. -/
inductive WatchEvent where
  | Added (o : Obj)
  | Modified (o : Obj)
  | Deleted (o : Obj)
  | Error (e : ErrorResponse)
deriving DecidableEq, Repr

/-- Modelled from the spec: a transport-level or deserialization failure
surfaced as a stream item (`kube::Error`, outside `src/`); its payload is
irrelevant to the informer, which only logs it. -/
structure KubeError where
  msg : String
deriving DecidableEq, Repr

/-- One item of the watch stream: `Result<WatchEvent<K>>`. -/
abbrev WatchItem := Except KubeError WatchEvent

/-- Modelled from the spec: the recognized watch query options —
label selector, field selector, server-side timeout (`ListParams`, defined
in the `kube` crate's api module, outside `src/`). -/
structure ListParams where
  label_selector : Option String := none
  field_selector : Option String := none
  timeout : Option Nat := none
deriving DecidableEq, Repr

/-! ## Informer state and operations (informer.rs) -/

/-- The informer's shared mutable state plus its query configuration:
`version: Arc<Mutex<String>>`, `needs_resync: Arc<Mutex<bool>>`,
`params: ListParams` (informer.rs:24-32). The transport handle `api` is
external and not modelled. -/
structure Informer where
  version : String
  needs_resync : Bool
  params : ListParams
deriving DecidableEq, Repr

/-- Embedding of `Informer::new` (informer.rs:39-46): default params, version
`0.to_string()`, resync flag false. -/
def Informer.new : Informer :=
  { version := natToString 0, needs_resync := false, params := {} }

/-- Embedding of `Informer::params` (informer.rs:49-52). -/
def Informer.setParams (inf : Informer) (lp : ListParams) : Informer :=
  { inf with params := lp }

/-- Embedding of `Informer::set_version` (informer.rs:61-69). -/
def Informer.set_version (inf : Informer) (v : String) : Informer :=
  { inf with version := v }

/-- Embedding of `Informer::reset` (informer.rs:74-76): version becomes
`0.to_string()`. -/
def Informer.reset (inf : Informer) : Informer :=
  { inf with version := natToString 0 }

/-- Embedding of `Informer::version` (informer.rs:79-83): read the current cursor. -/
def Informer.currentVersion (inf : Informer) : String :=
  inf.version

/-- The version merge computed at informer.rs:136-143: if both the
incoming version `nv` and the current version parse as `u32`, store the
decimal rendering of their maximum; otherwise store `nv` verbatim. -/
def mergeVersion (current nv : String) : String :=
  match parseU32 nv, parseU32 current with
  | some nvu, some cu => natToString (max nvu cu)
  | _, _ => nv

/-- The interception stage of `Informer::poll` (informer.rs:124-165),
applied to one stream item: update the shared state as a side effect and
forward the item unchanged (informer.rs:163). -/
def intercept (inf : Informer) (it : WatchItem) : Informer × WatchItem :=
  let inf2 :=
    match it with
    | .ok (.Added o) | .ok (.Modified o) | .ok (.Deleted o) =>
      match o.resourceVer with
      | some nv => { inf with version := mergeVersion inf.version nv }
      | none => inf
    | .ok (.Error e) =>
      if e.code = 410 then { inf with needs_resync := true } else inf
    | .error _ => inf
  (inf2, it)

/-- Consuming a list of stream items in order through the interception
stage, threading the shared state. -/
def processEvents (inf : Informer) (its : List WatchItem) : Informer :=
  its.foldl (fun s it => (intercept s it).1) inf

/-- The items the consumer receives from the intercepted stream. -/
def forwardedItems (inf : Informer) (its : List WatchItem) : List WatchItem :=
  (its.foldl (fun (acc : Informer × List WatchItem) it =>
    ((intercept acc.1 it).1, acc.2 ++ [(intercept acc.1 it).2])) (inf, [])).2

/-- The fixed resync backoff, `Duration::from_secs(10)`
(informer.rs:103). -/
def backoffSecs : Nat := 10

/-- The resync block at the start of `Informer::poll`
(informer.rs:99-111), sequential semantics: if the flag is set, sleep
`backoffSecs` (returned as the second component), re-check the flag,
reset the cursor if still set, clear the flag. -/
def resyncStep (inf : Informer) : Informer × Nat :=
  if inf.needs_resync then
    ((if inf.needs_resync then
        { inf with version := natToString 0, needs_resync := false }
      else
        { inf with needs_resync := false }), backoffSecs)
  else (inf, 0)

/-- The single watch request a poll issues (informer.rs:121): the
configured query parameters and the cursor value read after the resync
block. -/
structure WatchRequest where
  params : ListParams
  resourceVersion : String
deriving DecidableEq, Repr

/-- The setup phase of `Informer::poll` (informer.rs:95-121): run the
resync block, then capture the current cursor and issue one watch request
with it and the configured params. Returns the state after setup, the
request, and the seconds slept. -/
def pollStart (inf : Informer) : Informer × WatchRequest × Nat :=
  let (inf1, slept) := resyncStep inf
  (inf1, { params := inf1.params, resourceVersion := inf1.version }, slept)

/-! ## Interference model for the resync block

The `needs_resync` mutex guard is held across the whole block
(informer.rs:100-111), but to settle the reachability of the skip-resync
branch we over-approximate: during the backoff sleep we allow any
sequence of the informer's other operations — the public operations
(`set_version`, `reset`, `version`, `params`) and interception of stream
items — to run. The real executions are a subset of these. -/

/-- An operation another task could perform while a poll sleeps. -/
inductive ExtOp where
  | setVersion (v : String)
  | resetVersion
  | readVersion
  | setParams (lp : ListParams)
  | interceptItem (it : WatchItem)

/-- Effect of one interfering operation on the shared state. -/
def applyExtOp (inf : Informer) : ExtOp → Informer
  | .setVersion v => inf.set_version v
  | .resetVersion => inf.reset
  | .readVersion => inf
  | .setParams lp => inf.setParams lp
  | .interceptItem it => (intercept inf it).1

/-- Effect of a sequence of interfering operations. -/
def applyExtOps (inf : Informer) (ops : List ExtOp) : Informer :=
  ops.foldl applyExtOp inf

/-- The resync block (informer.rs:99-111) with interference: the flag is
read, the sleep happens while `ops` run, the flag is re-checked on the
resulting state, the cursor is reset if it is still set, and the flag is
cleared. `resyncBlockConc inf [] = (resyncStep inf).1`. -/
def resyncBlockConc (inf : Informer) (ops : List ExtOp) : Informer :=
  if inf.needs_resync then
    let mid := applyExtOps inf ops
    let mid2 := if mid.needs_resync then { mid with version := natToString 0 } else mid
    { mid2 with needs_resync := false }
  else inf

/-! ## The CustomResource derive entry point (custom_resource.rs) -/

/-- The part of `syn::DeriveInput` the derive logic reads: the annotated
struct's identifier (compared textually at custom_resource.rs:55). -/
structure DeriveInput where
  ident : String
deriving DecidableEq, Repr

/-- The `#[kube(...)]` attributes parsed by darling
(custom_resource.rs:9-32). -/
structure KubeAttrs where
  group : String
  version : String
  kind : String
  kind_struct : Option String := none
  plural : Option String := none
  namespaced : Bool := false
  apiextensions : String := "v1"
  derives : List String := []
  status : Option String := none
  shortnames : List String := []
  printcolums : List String := []
  scale : Option String := none
deriving DecidableEq, Repr

/-- Embedding of `default_apiext` (custom_resource.rs:34-36). -/
def default_apiext : String := "v1"

/-- Summary of the registration code `derive` generates on success: the
names and constants it computes at custom_resource.rs:54, 148, 190-209
before quoting. The quoted token stream itself is not modelled; for the
plural inferred by the external `inflector` crate a placeholder suffix
rule stands in (no claim depends on it). -/
structure GeneratedCode where
  structName : String
  apiVersion : String
  group : String
  kind : String
  version : String
  singular : String
  plural : String
  scope : String
  crdMetaName : String
  hasStatus : Bool
deriving DecidableEq, Repr

/-- Placeholder for `inflector::string::pluralize::to_plural` (external
crate, outside this repository; no claim depends on its exact output). -/
def toPlural (s : String) : String := s ++ "s"

/-- Embedding of `derive` (custom_resource.rs:38-324): compute the generated type name
(`struct` override, else `kind`), refuse it when it equals the annotated
struct's identifier (custom_resource.rs:54-60), otherwise produce the
registration code. Fallible `syn::parse_str` calls on the fixed built-in
derive list always succeed and are not modelled. -/
def derive (input : DeriveInput) (attrs : KubeAttrs) :
    Except String GeneratedCode :=
  let struct_name := attrs.kind_struct.getD attrs.kind
  if input.ident = struct_name then
    .error ("#[derive(CustomResource)] kind must not equal the struct name (this is generated)")
  else
    let name := attrs.kind.toLower
    let plural := attrs.plural.getD (toPlural name)
    .ok
      { structName := struct_name
        apiVersion := attrs.group ++ "/" ++ attrs.version
        group := attrs.group
        kind := attrs.kind
        version := attrs.version
        singular := name
        plural := plural
        scope := if attrs.namespaced then ("Namespaced") else ("Cluster")
        crdMetaName := plural ++ "." ++ attrs.group
        hasStatus := attrs.status.isSome }

/-! ## Observation helpers for stating the claims -/

/-- The resource version carried by a stream item, when it is an
Added/Modified/Deleted event whose object has one. -/
def eventVersion : WatchItem → Option String
  | .ok (.Added o) | .ok (.Modified o) | .ok (.Deleted o) => o.resourceVer
  | _ => none

/-- The numeric resource version of a stream item, when it carries one
that parses as `u32`. -/
def itemNumVersion (it : WatchItem) : Option Nat :=
  (eventVersion it).bind parseU32

/-- Whether a stream item is the distinguished history-expired error. -/
def isGoneItem : WatchItem → Bool
  | .ok (.Error e) => e.code == 410
  | _ => false

/-! ## Helper lemmas -/

theorem natToString_zero : natToString 0 = "0" := by
  rw [natToString, natDigits]
  decide

theorem mergeVersion_num {cur nv : String} {nvu cu : Nat}
    (h1 : parseU32 nv = some nvu) (h2 : parseU32 cur = some cu) :
    mergeVersion cur nv = natToString (max nvu cu) := by
  simp [mergeVersion, h1, h2]

theorem mergeVersion_opaque {cur nv : String}
    (h : parseU32 nv = none ∨ parseU32 cur = none) :
    mergeVersion cur nv = nv := by
  rcases h with h | h
  · simp [mergeVersion, h]
  · cases hnv : parseU32 nv <;> simp [mergeVersion, hnv, h]

theorem intercept_needs_resync (inf : Informer) (it : WatchItem) :
    (intercept inf it).1.needs_resync = (inf.needs_resync || isGoneItem it) := by
  rcases it with e | ev
  · simp [intercept, isGoneItem]
  · rcases ev with o | o | o | e <;>
      simp only [intercept, isGoneItem]
    · cases o.resourceVer <;> simp
    · cases o.resourceVer <;> simp
    · cases o.resourceVer <;> simp
    · by_cases h : e.code = 410
      · simp [h]
      · simp [h, Nat.ne_of_gt, beq_iff_eq]

theorem intercept_numeric {inf : Informer} {it : WatchItem} {v c0 : Nat}
    (h : itemNumVersion it = some v) (hc0 : parseU32 inf.version = some c0) :
    (intercept inf it).1.version = natToString (max v c0) ∧
    parseU32 (intercept inf it).1.version = some (max v c0) := by
  have hmax : max v c0 < 4294967296 := by
    have := parseU32_lt hc0
    rcases Option.bind_eq_some.mp h with ⟨nv, _, hp⟩
    have := parseU32_lt hp
    omega
  rcases hnv : eventVersion it with _ | nv
  · rw [itemNumVersion, hnv] at h
    exact absurd h (by simp)
  · rw [itemNumVersion, hnv] at h
    simp only [Option.some_bind] at h
    have hmerge : mergeVersion inf.version nv = natToString (max v c0) :=
      mergeVersion_num h hc0
    have hver : (intercept inf it).1.version = natToString (max v c0) := by
      rcases it with e | ev
      · exact absurd hnv (by simp [eventVersion])
      · rcases ev with o | o | o | e <;>
          simp only [eventVersion] at hnv <;>
          first
            | exact absurd hnv (by simp)
            | (simp only [intercept, hnv]; exact hmerge)
    exact ⟨hver, by rw [hver]; exact parseU32_natToString hmax⟩

theorem intercept_opaque {inf : Informer} {it : WatchItem} {nv : String}
    (hev : eventVersion it = some nv) (hp : parseU32 nv = none) :
    (intercept inf it).1.version = nv := by
  have hmerge : mergeVersion inf.version nv = nv := mergeVersion_opaque (Or.inl hp)
  rcases it with e | ev
  · exact absurd hev (by simp [eventVersion])
  · rcases ev with o | o | o | e <;>
      simp only [eventVersion] at hev <;>
      first
        | exact absurd hev (by simp)
        | (simp only [intercept, hev]; exact hmerge)

theorem applyExtOps_needs_resync {inf : Informer} (ops : List ExtOp)
    (h : inf.needs_resync = true) :
    (applyExtOps inf ops).needs_resync = true := by
  induction ops generalizing inf with
  | nil => exact h
  | cons op rest ih =>
    rw [applyExtOps, List.foldl_cons, ← applyExtOps]
    apply ih
    rcases op with v | _ | _ | lp | it <;>
      simp [applyExtOp, Informer.set_version, Informer.reset, Informer.setParams, h]
    rw [intercept_needs_resync, h, Bool.true_or]

theorem processEvents_nil (inf : Informer) : processEvents inf [] = inf := rfl

theorem processEvents_cons (inf : Informer) (it : WatchItem)
    (its : List WatchItem) :
    processEvents inf (it :: its) = processEvents (intercept inf it).1 its := rfl

theorem intercept_snd (inf : Informer) (it : WatchItem) :
    (intercept inf it).2 = it := rfl

theorem forwardedItems_eq (inf : Informer) (its : List WatchItem) :
    forwardedItems inf its = its := by
  have key : ∀ (l : List WatchItem) (s : Informer) (acc : List WatchItem),
      (l.foldl (fun (p : Informer × List WatchItem) it =>
        ((intercept p.1 it).1, p.2 ++ [(intercept p.1 it).2])) (s, acc)).2 = acc ++ l := by
    intro l
    induction l with
    | nil => intro s acc; simp
    | cons it rest ih =>
      intro s acc
      rw [List.foldl_cons, ih, intercept_snd]
      simp
  simpa using key its inf []

theorem foldl_max_take_succ (vs : List Nat) (c0 i : Nat) :
    List.foldl max c0 (vs.take i) ≤ List.foldl max c0 (vs.take (i + 1)) := by
  induction vs generalizing c0 i with
  | nil => simp
  | cons v rest ih =>
    cases i with
    | zero =>
      simp only [List.take_zero, List.foldl_nil, List.take_succ_cons,
        List.take_zero, List.foldl_cons]
      exact Nat.le_max_left c0 v
    | succ j =>
      simp only [List.take_succ_cons, List.foldl_cons]
      exact ih (max c0 v) j

/-! ## Claim theorems -/

/-- C1: the Version Merge Policy, applied once per ingested
Added/Modified/Deleted event that carries a resource version, stores the
decimal rendering of the numeric maximum when both the current and the
incoming version parse as unsigned 32-bit integers, and stores the
incoming string verbatim when either fails to parse. -/
theorem claim_C1_merge_policy (inf : Informer) (ev : WatchEvent) (o : Obj)
    (nv : String)
    (hev : ev = .Added o ∨ ev = .Modified o ∨ ev = .Deleted o)
    (hver : o.resourceVer = some nv) :
    (∀ nvu cu, parseU32 nv = some nvu → parseU32 inf.version = some cu →
      (intercept inf (.ok ev)).1.version = natToString (max nvu cu)) ∧
    ((parseU32 nv = none ∨ parseU32 inf.version = none) →
      (intercept inf (.ok ev)).1.version = nv) := by
  have hversion : (intercept inf (.ok ev)).1.version = mergeVersion inf.version nv := by
    rcases hev with h | h | h <;> subst h <;> simp [intercept, hver]
  refine ⟨fun nvu cu h1 h2 => ?_, fun h => ?_⟩
  · rw [hversion]; exact mergeVersion_num h1 h2
  · rw [hversion]; exact mergeVersion_opaque h

/-- C1 witness: starting at cursor "3", an Added event with version "10"
stores the rendering of max 10 3. -/
theorem claim_C1_merge_policy_witness :
    (intercept { version := "3", needs_resync := false, params := {} }
      (.ok (.Added ⟨some ("10")⟩))).1.version = natToString (max 10 3) :=
  (claim_C1_merge_policy { version := "3", needs_resync := false, params := {} }
    (.Added ⟨some ("10")⟩) ⟨some ("10")⟩ "10" (Or.inl rfl) rfl).1 10 3
    (by decide) (by decide)

/-- C4: when the resync flag is set at the start of a poll, the poll
sleeps the fixed 10-second backoff, re-checks the flag, resets the cursor
to "0", clears the flag, and issues its watch request with the post-reset
cursor — all before the watch request. -/
theorem claim_C4_resync_controller (inf : Informer)
    (h : inf.needs_resync = true) :
    pollStart inf =
      ({ inf with version := natToString 0, needs_resync := false },
       { params := inf.params, resourceVersion := natToString 0 },
       backoffSecs) ∧
    backoffSecs = 10 ∧ natToString 0 = "0" := by
  refine ⟨?_, rfl, natToString_zero⟩
  simp [pollStart, resyncStep, h]

/-- C4 witness: a concrete poll with the flag set. -/
theorem claim_C4_resync_controller_witness :
    pollStart { version := "9", needs_resync := true, params := {} } =
      ({ version := natToString 0, needs_resync := false, params := {} },
       { params := {}, resourceVersion := natToString 0 },
       backoffSecs) :=
  (claim_C4_resync_controller
    { version := "9", needs_resync := true, params := {} } rfl).1

/-- C6: any Error event whose code is not 410, and any transport-level
Err item, is forwarded unchanged and leaves both the cursor and the
resync flag untouched. -/
theorem claim_C6_other_errors (inf : Informer) (e : ErrorResponse)
    (err : KubeError) (hne : e.code ≠ 410) :
    intercept inf (.ok (.Error e)) = (inf, .ok (.Error e)) ∧
    intercept inf (.error err) = (inf, .error err) := by
  constructor
  · simp [intercept, hne]
  · simp [intercept]

/-- C6 witness: a 500 error and a transport error leave a concrete state
unchanged. -/
theorem claim_C6_other_errors_witness :
    intercept { version := "7", needs_resync := false, params := {} }
        (.ok (.Error ⟨500, "oops", "InternalError"⟩)) =
      ({ version := "7", needs_resync := false, params := {} },
       .ok (.Error ⟨500, "oops", "InternalError"⟩)) ∧
    intercept { version := "7", needs_resync := false, params := {} }
        (.error ⟨"EOF"⟩) =
      ({ version := "7", needs_resync := false, params := {} },
       .error ⟨"EOF"⟩) :=
  claim_C6_other_errors { version := "7", needs_resync := false, params := {} }
    ⟨500, "oops", "InternalError"⟩ ⟨"EOF"⟩ (by decide)

/-- C7: every poll issues its single watch request with the configured
params and the cursor value current once its resync block has run (equal
to the stored cursor at call time when no resync is pending); after
`reset` the next poll's request carries version "0", and a fresh informer
starts at version "0" with the flag false and polls from "0". -/
theorem claim_C7_request_uses_cursor (inf : Informer) :
    (pollStart inf).2.1 =
      { params := (pollStart inf).1.params,
        resourceVersion := (pollStart inf).1.version } ∧
    (inf.needs_resync = false →
      (pollStart inf).2.1 = { params := inf.params, resourceVersion := inf.version }) ∧
    (pollStart inf.reset).2.1.resourceVersion = "0" ∧
    Informer.new.version = "0" ∧
    Informer.new.needs_resync = false ∧
    (pollStart Informer.new).2.1.resourceVersion = "0" := by
  refine ⟨?_, fun h => ?_, ?_, natToString_zero, rfl, ?_⟩
  · simp [pollStart]
  · simp [pollStart, resyncStep, h]
  · by_cases h : inf.needs_resync <;>
      simp [pollStart, resyncStep, Informer.reset, h, natToString_zero]
  · simp [pollStart, resyncStep, Informer.new, natToString_zero]

/-- C7 witness: with no resync pending, a concrete poll requests at the
stored cursor. -/
theorem claim_C7_request_uses_cursor_witness :
    (pollStart { version := "5", needs_resync := false, params := {} }).2.1 =
      { params := {}, resourceVersion := "5" } :=
  (claim_C7_request_uses_cursor
    { version := "5", needs_resync := false, params := {} }).2.1 rfl

/-- C10: the derive entry point returns an error (producing no generated
registration code) whenever the effective generated type name — the
`struct` override when given, otherwise `kind` — equals the identifier of
the annotated struct. -/
theorem claim_C10_derive_name_clash (input : DeriveInput) (attrs : KubeAttrs)
    (h : attrs.kind_struct.getD attrs.kind = input.ident) :
    ∃ msg, derive input attrs = .error msg := by
  refine ⟨"#[derive(CustomResource)] kind must not equal the struct name (this is generated)", ?_⟩
  simp [derive, h.symm]

/-- C10 witness: `kind = "Foo"` on a struct named `Foo` is rejected. -/
theorem claim_C10_derive_name_clash_witness :
    ∃ msg, derive ⟨"Foo"⟩ { group := "g", version := "v1", kind := "Foo" } =
      .error msg :=
  claim_C10_derive_name_clash ⟨"Foo"⟩
    { group := "g", version := "v1", kind := "Foo" } rfl

/-- C2: over any in-order sequence of Added/Modified/Deleted events
carrying numeric versions, starting from a numeric cursor, the stored
cursor after each prefix is the maximum numeric version observed so far
(including the starting cursor), and that value never decreases from one
event to the next. -/
theorem claim_C2_numeric_monotone (inf : Informer) (its : List WatchItem)
    (vs : List Nat) (c0 : Nat)
    (hnum : List.Forall₂ (fun it v => itemNumVersion it = some v) its vs)
    (hc0 : parseU32 inf.version = some c0) :
    (∀ i, parseU32 (processEvents inf (its.take i)).version
        = some (List.foldl max c0 (vs.take i))) ∧
    (∀ i, List.foldl max c0 (vs.take i) ≤ List.foldl max c0 (vs.take (i + 1))) := by
  refine ⟨?_, fun i => foldl_max_take_succ vs c0 i⟩
  induction hnum generalizing inf c0 with
  | nil =>
    intro i
    simpa [processEvents_nil] using hc0
  | cons h1 h2 ih =>
    rename_i it v its' vs'
    intro i
    cases i with
    | zero => simpa [processEvents_nil] using hc0
    | succ j =>
      have hstep := intercept_numeric h1 hc0
      rw [List.take_succ_cons, List.take_succ_cons, processEvents_cons,
        List.foldl_cons, Nat.max_comm c0 v]
      exact ih _ (max v c0) hstep.2 j

/-- C2 witness: from cursor "0", versions 5 then 7 leave the cursor at
the running maximum. -/
theorem claim_C2_numeric_monotone_witness :
    parseU32 (processEvents { version := "0", needs_resync := false, params := {} }
        ([Except.ok (WatchEvent.Added ⟨some ("5")⟩),
          Except.ok (WatchEvent.Modified ⟨some ("7")⟩)].take 2)).version
      = some (List.foldl max 0 ([5, 7].take 2)) :=
  (claim_C2_numeric_monotone
    { version := "0", needs_resync := false, params := {} }
    [Except.ok (WatchEvent.Added ⟨some ("5")⟩),
     Except.ok (WatchEvent.Modified ⟨some ("7")⟩)]
    [5, 7] 0
    (List.Forall₂.cons (by decide)
      (List.Forall₂.cons (by decide) List.Forall₂.nil))
    (by decide)).1 2

/-- C3: an Error event with code 410 arms the resync flag and is still
forwarded unchanged on the current sequence; across a whole stream the
flag ends up armed exactly when the prior flag was armed or some item was
a 410 error (no other event arms it and nothing mid-stream clears it),
and every stream item reaches the consumer unchanged. -/
theorem claim_C3_gone_arms_flag (inf : Informer) (e : ErrorResponse)
    (its : List WatchItem) (h410 : e.code = 410) :
    intercept inf (.ok (.Error e)) =
      ({ inf with needs_resync := true }, .ok (.Error e)) ∧
    (processEvents inf its).needs_resync = (inf.needs_resync || its.any isGoneItem) ∧
    forwardedItems inf its = its := by
  refine ⟨by simp [intercept, h410], ?_, forwardedItems_eq inf its⟩
  induction its generalizing inf with
  | nil => simp [processEvents_nil]
  | cons it rest ih =>
    rw [processEvents_cons, ih, intercept_needs_resync, List.any_cons,
      Bool.or_assoc]

/-- C3 witness: a 410 error in a concrete one-item stream arms the
flag. -/
theorem claim_C3_gone_arms_flag_witness :
    (processEvents { version := "1", needs_resync := false, params := {} }
        [Except.ok (WatchEvent.Error ⟨410, "Gone", "Gone"⟩)]).needs_resync =
      (false || [Except.ok (WatchEvent.Error ⟨410, "Gone", "Gone"⟩)].any isGoneItem) :=
  (claim_C3_gone_arms_flag
    { version := "1", needs_resync := false, params := {} }
    ⟨410, "Gone", "Gone"⟩
    [Except.ok (WatchEvent.Error ⟨410, "Gone", "Gone"⟩)] rfl).2.1

/-- C5: over any sequence of Added/Modified/Deleted events whose resource
versions are all non-numeric, the stored cursor after processing is the
most recently observed version value — the incoming value always
overwrites, with no ordering check. -/
theorem claim_C5_opaque_last_write (inf : Informer) (its : List WatchItem)
    (nvs : List String) (lastv : String)
    (hop : List.Forall₂
      (fun it nv => eventVersion it = some nv ∧ parseU32 nv = none) its nvs)
    (hlast : nvs.getLast? = some lastv) :
    (processEvents inf its).version = lastv := by
  induction hop generalizing inf with
  | nil => simp at hlast
  | cons h1 h2 ih =>
    rename_i it nv its' nvs'
    cases h2 with
    | nil =>
      simp only [List.getLast?_singleton, Option.some.injEq] at hlast
      rw [processEvents_cons, processEvents_nil, intercept_opaque h1.1 h1.2, hlast]
    | cons h1' h2' =>
      rw [List.getLast?_cons_cons] at hlast
      rw [processEvents_cons]
      exact ih _ hlast

/-- C5 witness: opaque versions "abc" then "xyz" leave the cursor at
"xyz". -/
theorem claim_C5_opaque_last_write_witness :
    (processEvents { version := "0", needs_resync := false, params := {} }
        [Except.ok (WatchEvent.Added ⟨some ("abc")⟩),
         Except.ok (WatchEvent.Modified ⟨some ("xyz")⟩)]).version = "xyz" :=
  claim_C5_opaque_last_write
    { version := "0", needs_resync := false, params := {} }
    [Except.ok (WatchEvent.Added ⟨some ("abc")⟩),
     Except.ok (WatchEvent.Modified ⟨some ("xyz")⟩)]
    ["abc", "xyz"] "xyz"
    (List.Forall₂.cons (by decide)
      (List.Forall₂.cons (by decide) List.Forall₂.nil))
    rfl

/-- C9: none of the public operations (`set_version`, `reset`, `version`,
`params`) ever writes the resync flag, and interception can only arm it;
hence when the flag is set at the start of a poll, any interference
during the backoff sleep still leaves it set — the post-sleep re-check
never observes it cleared, and the cursor is always reset to "0" with the
flag then cleared (the skip-resync branch is unreachable). -/
theorem claim_C9_resync_unskippable (inf : Informer) (ops : List ExtOp)
    (h : inf.needs_resync = true) :
    (∀ v, (inf.set_version v).needs_resync = inf.needs_resync) ∧
    ((Informer.reset inf).needs_resync = inf.needs_resync) ∧
    (∀ lp, (inf.setParams lp).needs_resync = inf.needs_resync) ∧
    ((applyExtOps inf ops).needs_resync = true) ∧
    resyncBlockConc inf ops =
      { applyExtOps inf ops with version := natToString 0, needs_resync := false } := by
  refine ⟨fun v => rfl, rfl, fun lp => rfl, applyExtOps_needs_resync ops h, ?_⟩
  simp [resyncBlockConc, h, applyExtOps_needs_resync ops h]

/-- C9 witness: with the flag set and interference that rewrites the
version and delivers another 410 error during the sleep, the block still
resets the cursor and clears the flag. -/
theorem claim_C9_resync_unskippable_witness :
    resyncBlockConc { version := "5", needs_resync := true, params := {} }
        [ExtOp.setVersion ("42"),
         ExtOp.interceptItem (Except.ok (WatchEvent.Error ⟨410, "Gone", "Gone"⟩))] =
      { applyExtOps { version := "5", needs_resync := true, params := {} }
          [ExtOp.setVersion ("42"),
           ExtOp.interceptItem (Except.ok (WatchEvent.Error ⟨410, "Gone", "Gone"⟩))] with
        version := natToString 0, needs_resync := false } :=
  (claim_C9_resync_unskippable
    { version := "5", needs_resync := true, params := {} }
    [ExtOp.setVersion ("42"),
     ExtOp.interceptItem (Except.ok (WatchEvent.Error ⟨410, "Gone", "Gone"⟩))]
    rfl).2.2.2.2

end KubeRs
